import Mathlib

/-!
Shallow embedding of `src/pin_pulser.rs` (crate `rpi_led_panel`).

The two pulser strategies are modelled as pure functions over explicit state,
returning the list of register-level operations (events) they perform.
Machine integers (`u32`, `u64`) are modelled as `Nat` with explicit
`% 2^32` / `% 2^64` where overflow can occur (release-mode wrapping
semantics); Rust operations that panic (slice indexing out of bounds,
division by zero, the `unreachable!` arm) are modelled as `Option` results,
`none` standing for a panic.
-/

/-- Constant `PWM_BASE_TIME_NS: u32 = 2` from the source. -/
def PWM_BASE_TIME_NS : Nat := 2

/-- Constant `EMPIRICAL_NANOSLEEP_OVERHEAD_US: u32 = 12` from the source
(declared there, never read by any function in the file). -/
def EMPIRICAL_NANOSLEEP_OVERHEAD_US : Nat := 12

/-- Constant `MINIMUM_NANOSLEEP_TIME_US: u32 = 5` from the source
(declared there, never read by any function in the file). -/
def MINIMUM_NANOSLEEP_TIME_US : Nat := 5

/-- Modelled from the spec: the `GPIOFunction` alternate-function selector of
the external `registers` module (not under `src/`); only the two variants this
core selects are needed. -/
inductive GPIOFunction where
  | Alt0 : GPIOFunction
  | Alt5 : GPIOFunction
deriving DecidableEq

/-- Register-level operations the pulsers perform, in the order performed.
Each constructor is one call on the external register collaborators
(spec section 6): GPIO set/clear, `thread::sleep(Duration::from_nanos _)`,
GPIO function select, PWM reset / period / FIFO push / enable, PWM clock
divider init, `TimeRegisters::sleep_at_most`, and the FIFO-drain poll loop.
`spinUntilNs` is used only by the spec-side trace of claim C2 (a busy-spin to
an absolute deadline); the source never emits it. -/
inductive Event where
  | clrBits (mask : Nat) : Event
  | setBits (mask : Nat) : Event
  | sleepNs (ns : Nat) : Event
  | spinUntilNs (deadlineNs : Nat) : Event
  | selectFunction (pin : Nat) (f : GPIOFunction) : Event
  | resetPwm : Event
  | initPwmDivider (n : Nat) : Event
  | setPwmPulsePeriod (n : Nat) : Event
  | pushFifo (n : Nat) : Event
  | enablePwm : Event
  | sleepAtMost (us : Nat) : Event
  | drainFifo : Event
deriving DecidableEq

/-- Modelled from the spec: the crate-root `gpio_bits!` macro (not under
`src/`), the single-bit pin mask for a GPIO number. -/
def gpio_bits (n : Nat) : Nat := 2 ^ n

/-- Rust `u32`/`u64` division, which panics when the divisor is zero. -/
def u32Div (a b : Nat) : Option Nat :=
  if b = 0 then none else some (a / b)

/-- Rust's `iter().map(f).collect()` over a fallible element computation:
evaluates `f` left to right, propagating the first panic (`none`). -/
def collectOption {α β : Type} (f : α → Option β) : List α → Option (List β)
  | [] => some []
  | x :: xs =>
    match f x, collectOption f xs with
    | some y, some ys => some (y :: ys)
    | _, _ => none

/-- Struct `Pulse`: timing info for the in-flight hardware pulse. -/
structure Pulse where
  start_time : Nat
  sleep_hint_us : Nat
deriving DecidableEq

/-- Struct `TimerBasedPinPulser`: the software-timed pulser's state. -/
structure TimerBasedPinPulser where
  sleep_hints_ns : List Nat
  pins : Nat
deriving DecidableEq

/-- `TimerBasedPinPulser::new`: stores `t / 1000` for every table entry
(`bitplane_timings_us.iter().map(|&t| t / 1000).collect()`) and the pin
mask. -/
def TimerBasedPinPulser.new (bitplane_timings_us : List Nat) (pins : Nat) :
    TimerBasedPinPulser :=
  ⟨bitplane_timings_us.map (fun t => t / 1000), pins⟩

/-- `TimerBasedPinPulser::send_pulse`: reads `sleep_hints_ns[bitplane]`
(panic when out of range), clears the pin mask, sleeps
`Duration::from_nanos(us)`, sets the pin mask. The state is unchanged. -/
def TimerBasedPinPulser.send_pulse (s : TimerBasedPinPulser)
    (bitplane : Nat) : Option (List Event) :=
  match s.sleep_hints_ns[bitplane]? with
  | none => none
  | some us => some [Event.clrBits s.pins, Event.sleepNs us, Event.setBits s.pins]

/-- `TimerBasedPinPulser::wait_pulse_finished`: a no-op. -/
def TimerBasedPinPulser.wait_pulse_finished (s : TimerBasedPinPulser) :
    TimerBasedPinPulser × List Event :=
  (s, [])

/-- Struct `HardwarePinPulser`: the hardware PWM pulser's state. -/
structure HardwarePinPulser where
  sleep_hints_us : List Nat
  pulse_periods : List Nat
  current_pulse : Option Pulse
  pins : Nat
deriving DecidableEq

/-- The pin-mask validation of `HardwarePinPulser::new`: GPIO 18 gets Alt5,
GPIO 12 gets Alt0, anything else hits `unreachable!` (panic, modelled as
`none`). -/
def pinFunctionEvent (pins : Nat) : Option Event :=
  if pins = gpio_bits 18 then some (Event.selectFunction 18 GPIOFunction.Alt5)
  else if pins = gpio_bits 12 then some (Event.selectFunction 12 GPIOFunction.Alt0)
  else none

/-- `HardwarePinPulser::new`: `sleep_hints_us = map (t / 1000)`;
`time_base = bitplane_timings_ns[0]` (panic on an empty table); pin-mask
validation and function select; `reset_pwm`;
`init_pwm_divider((time_base / 2) / PWM_BASE_TIME_NS)`;
`pulse_periods = map (2 * timing / time_base)` in `u32` arithmetic
(wraps at `2^32`, panics when `time_base = 0`); `current_pulse = None`. -/
def HardwarePinPulser.new (pins : Nat) (bitplane_timings_ns : List Nat) :
    Option (HardwarePinPulser × List Event) :=
  match bitplane_timings_ns.head? with
  | none => none
  | some time_base =>
    match pinFunctionEvent pins with
    | none => none
    | some fnEvent =>
      match collectOption
          (fun timing => u32Div (2 * timing % 4294967296) time_base)
          bitplane_timings_ns with
      | none => none
      | some pulse_periods =>
        some (⟨bitplane_timings_ns.map (fun t => t / 1000), pulse_periods, none, pins⟩,
          [fnEvent, Event.resetPwm,
            Event.initPwmDivider (time_base / 2 / PWM_BASE_TIME_NS)])

/-- `HardwarePinPulser::send_pulse`: reads `pulse_periods[bitplane]` and
`sleep_hints_us[bitplane]` (panic when out of range); when the period is
below 16, sets the PWM period to it and pushes it once, otherwise sets the
period to `period / 8` and pushes that fraction eight times; then pushes two
zero entries, records the in-flight `Pulse` from the current time
(`time_registers.get_time()`, passed in as `now`) and the sleep hint, and
enables PWM. -/
def HardwarePinPulser.send_pulse (s : HardwarePinPulser) (bitplane : Nat)
    (now : Nat) : Option (HardwarePinPulser × List Event) :=
  match s.pulse_periods[bitplane]?, s.sleep_hints_us[bitplane]? with
  | some period, some hint =>
    some (⟨s.sleep_hints_us, s.pulse_periods, some ⟨now, hint⟩, s.pins⟩,
      (if period < 16 then
        [Event.setPwmPulsePeriod period, Event.pushFifo period]
      else
        Event.setPwmPulsePeriod (period / 8) ::
          List.replicate 8 (Event.pushFifo (period / 8)))
        ++ [Event.pushFifo 0, Event.pushFifo 0, Event.enablePwm])
  | _, _ => none

/-- `HardwarePinPulser::wait_pulse_finished`: when no in-flight pulse exists,
returns at once with no effect; otherwise takes the pulse (clearing
`current_pulse`), computes `already_elapsed_us = now - start_time` in
wrapping `u64` arithmetic, `remaining_time_us =
sleep_hint_us.saturating_sub(already_elapsed_us)` (Nat subtraction saturates
exactly like `u64::saturating_sub`), sleeps at most that long, polls the
FIFO until empty, and resets the PWM peripheral. -/
def HardwarePinPulser.wait_pulse_finished (s : HardwarePinPulser)
    (now : Nat) : HardwarePinPulser × List Event :=
  match s.current_pulse with
  | none => (s, [])
  | some pulse =>
    let already_elapsed_us :=
      (now + 18446744073709551616 - pulse.start_time) % 18446744073709551616
    let remaining_time_us := pulse.sleep_hint_us - already_elapsed_us
    (⟨s.sleep_hints_us, s.pulse_periods, none, s.pins⟩,
      [Event.sleepAtMost remaining_time_us, Event.drainFifo, Event.resetPwm])

/-- Values pushed to the PWM FIFO within an event trace, in order. -/
def fifoPushes (events : List Event) : List Nat :=
  events.filterMap (fun e =>
    match e with
    | Event.pushFifo n => some n
    | _ => none)

/-- Pulse periods derived by `HardwarePinPulser::new` (for stating claims
without destructuring the `Option`). -/
def newPeriods (pins : Nat) (timings : List Nat) : Option (List Nat) :=
  match HardwarePinPulser.new pins timings with
  | some (s, _) => some s.pulse_periods
  | none => none

/-- Event trace of `HardwarePinPulser::new`. -/
def newEvents (pins : Nat) (timings : List Nat) : Option (List Event) :=
  match HardwarePinPulser.new pins timings with
  | some (_, events) => some events
  | none => none

/-- Event trace of `HardwarePinPulser::send_pulse`. -/
def sendPulseEvents (s : HardwarePinPulser) (bitplane now : Nat) :
    Option (List Event) :=
  match s.send_pulse bitplane now with
  | some (_, events) => some events
  | none => none

/-- FIFO pushes performed by `HardwarePinPulser::send_pulse`. -/
def sendPulseFifo (s : HardwarePinPulser) (bitplane now : Nat) :
    Option (List Nat) :=
  match sendPulseEvents s bitplane now with
  | some events => some (fifoPushes events)
  | none => none

/-- FIFO pushes of a construct-then-pulse sequence on the hardware pulser. -/
def newThenPulseFifo (pins : Nat) (timings : List Nat) (bitplane : Nat) :
    Option (List Nat) :=
  match HardwarePinPulser.new pins timings with
  | none => none
  | some (s, _) =>
    match s.send_pulse bitplane 0 with
    | none => none
    | some (_, events) => some (fifoPushes events)

/-- Trace that claim C2 (spec section 4.2) describes for the timer
strategy's `send_pulse`, stated from the spec's words for comparison with
the source-derived trace: clear the pins; if the duration exceeds the
minimum threshold (overhead constant plus the small floor), coarse-sleep
`duration - overhead` and then busy-spin to the absolute deadline;
otherwise busy-spin the whole interval; set the pins. -/
def timerSendPulseClaimedTrace (pins duration_ns : Nat) : List Event :=
  if duration_ns > (EMPIRICAL_NANOSLEEP_OVERHEAD_US + MINIMUM_NANOSLEEP_TIME_US) * 1000 then
    [Event.clrBits pins,
      Event.sleepNs (duration_ns - EMPIRICAL_NANOSLEEP_OVERHEAD_US * 1000),
      Event.spinUntilNs duration_ns, Event.setBits pins]
  else
    [Event.clrBits pins, Event.spinUntilNs duration_ns, Event.setBits pins]

/-- Helper: a fallible collect whose element computation always succeeds is
the plain map. -/
theorem collectOption_eq_map {α β : Type} (f : α → Option β) (g : α → β)
    (l : List α) (h : ∀ x ∈ l, f x = some (g x)) :
    collectOption f l = some (l.map g) := by
  induction l with
  | nil => rfl
  | cons x xs ih =>
    have hx : f x = some (g x) := h x (List.mem_cons_self x xs)
    have hxs : collectOption f xs = some (xs.map g) :=
      ih (fun y hy => h y (List.mem_cons_of_mem x hy))
    simp [collectOption, hx, hxs]

/-- Helper: FIFO pushes extracted from a run of identical push events. -/
theorem fifoPushes_replicate (n q : Nat) :
    fifoPushes (List.replicate n (Event.pushFifo q)) = List.replicate n q := by
  induction n with
  | zero => rfl
  | succ k ih =>
    simp only [List.replicate_succ, fifoPushes, List.filterMap_cons] at ih ⊢
    simp only [ih]

/-- C1: the claim requires that for a `TimerBasedPinPulser` built from the
table `[50000]` (nanoseconds), `send_pulse 0` keeps the pins low for at
least 50000 ns. The code divides the table entry by 1000 at construction
and passes the result to `Duration::from_nanos`, so the only wait between
clearing and setting the pins is a requested sleep of 50 ns, strictly less
than the 50000 ns the claim requires. -/
theorem c1_timer_pulse_duration_bug :
    TimerBasedPinPulser.send_pulse (TimerBasedPinPulser.new [50000] 4) 0 =
      some [Event.clrBits 4, Event.sleepNs 50, Event.setBits 4] ∧
    (50 : Nat) < 50000 := by
  exact ⟨by decide, by decide⟩

/-- C2 counterexample: with table entry 50000 ns, the source's
`TimerBasedPinPulser::send_pulse` emits a single 50 ns sleep between the
pin toggles, which differs from the two-phase coarse-sleep-then-busy-spin
trace the claim describes (that trace contains a busy-spin to the 50000 ns
deadline; the code's trace contains none). -/
theorem c2_timer_two_phase_counterexample :
    TimerBasedPinPulser.send_pulse (TimerBasedPinPulser.new [50000] 4) 0 =
      some [Event.clrBits 4, Event.sleepNs 50, Event.setBits 4] ∧
    some [Event.clrBits 4, Event.sleepNs 50, Event.setBits 4] ≠
      some (timerSendPulseClaimedTrace 4 50000) ∧
    Event.spinUntilNs 50000 ∈ timerSendPulseClaimedTrace 4 50000 := by
  decide

/-- C2 amended: for every valid bitplane, the timer strategy's `send_pulse`
clears the pin mask, issues one sleep call requesting (table entry divided
by 1000) nanoseconds — no threshold case split, no coarse-sleep phase and
no busy-spin phase — and then sets the pin mask. -/
theorem c2_timer_single_sleep (table : List Nat) (pins bitplane : Nat)
    (h : bitplane < table.length) :
    TimerBasedPinPulser.send_pulse (TimerBasedPinPulser.new table pins) bitplane =
      some [Event.clrBits pins, Event.sleepNs (table.get ⟨bitplane, h⟩ / 1000),
        Event.setBits pins] := by
  have hq : table[bitplane]? = some table[bitplane] := List.getElem?_eq_getElem h
  simp [TimerBasedPinPulser.send_pulse, TimerBasedPinPulser.new,
    List.getElem?_map, hq, List.getElem_map]

/-- C2 witness: concrete run of the amended claim on table `[50000, 3000]`,
bitplane 1. -/
theorem c2_timer_single_sleep_witness :
    TimerBasedPinPulser.send_pulse (TimerBasedPinPulser.new [50000, 3000] 4) 1 =
      some [Event.clrBits 4, Event.sleepNs 3, Event.setBits 4] := by
  exact c2_timer_single_sleep [50000, 3000] 4 1 (by decide)

/-- C6: `wait_pulse_finished` with nothing in flight is a no-op for both
strategies: the timer strategy always returns immediately with no register
effect, the hardware strategy returns immediately with no register effect
and unchanged state whenever `current_pulse` is `None`, and a second
consecutive `wait_pulse_finished` (no intervening `send_pulse`) is always
such a no-op. -/
theorem c6_wait_pulse_finished_noop :
    (∀ s : TimerBasedPinPulser, s.wait_pulse_finished = (s, [])) ∧
    (∀ (s : HardwarePinPulser) (now : Nat),
      s.current_pulse = none → s.wait_pulse_finished now = (s, [])) ∧
    (∀ (s : HardwarePinPulser) (now now2 : Nat),
      ((s.wait_pulse_finished now).1).wait_pulse_finished now2 =
        ((s.wait_pulse_finished now).1, [])) := by
  refine ⟨fun s => rfl, ?_, ?_⟩
  · intro s now h
    simp [HardwarePinPulser.wait_pulse_finished, h]
  · intro s now now2
    cases hc : s.current_pulse <;>
      simp [HardwarePinPulser.wait_pulse_finished, hc]

/-- C6 witness: concrete no-op run of the hardware strategy's
`wait_pulse_finished` with no in-flight pulse. -/
theorem c6_wait_pulse_finished_noop_witness :
    HardwarePinPulser.wait_pulse_finished ⟨[5], [10], none, 4⟩ 7 =
      (⟨[5], [10], none, 4⟩, []) :=
  c6_wait_pulse_finished_noop.2.1 ⟨[5], [10], none, 4⟩ 7 rfl

/-- C7: in the hardware strategy's `wait_pulse_finished`, for an in-flight
pulse issued at `start_time` and a current counter value `now` (monotonic,
so `start_time ≤ now`, and a `u64` value), the coarse-wait request equals
the duration hint minus the elapsed time saturated at zero; in particular
whenever the elapsed time is at least the hint the request is exactly 0. -/
theorem c7_remaining_time_saturates (s : HardwarePinPulser) (p : Pulse)
    (now : Nat) (hp : s.current_pulse = some p) (h1 : p.start_time ≤ now)
    (h2 : now < 18446744073709551616) :
    (s.wait_pulse_finished now).2 =
      [Event.sleepAtMost (p.sleep_hint_us - (now - p.start_time)),
        Event.drainFifo, Event.resetPwm] ∧
    (p.sleep_hint_us ≤ now - p.start_time →
      (s.wait_pulse_finished now).2 =
        [Event.sleepAtMost 0, Event.drainFifo, Event.resetPwm]) := by
  have helapsed :
      (now + 18446744073709551616 - p.start_time) % 18446744073709551616 =
        now - p.start_time := by omega
  constructor
  · simp [HardwarePinPulser.wait_pulse_finished, hp, helapsed]
  · intro hle
    simp [HardwarePinPulser.wait_pulse_finished, hp, helapsed,
      Nat.sub_eq_zero_of_le hle]

/-- C7 witness: concrete run where the elapsed time (50 us) exceeds the
hint (30 us) and the coarse-wait request is 0. -/
theorem c7_remaining_time_saturates_witness :
    (HardwarePinPulser.wait_pulse_finished ⟨[30], [60], some ⟨100, 30⟩, 4⟩ 150).2 =
      [Event.sleepAtMost 0, Event.drainFifo, Event.resetPwm] :=
  (c7_remaining_time_saturates ⟨[30], [60], some ⟨100, 30⟩, 4⟩ ⟨100, 30⟩ 150 rfl
    (by decide) (by decide)).2 (by decide)

/-- C10: `HardwarePinPulser::new` never silently constructs a pulser from a
degenerate table: on an empty table it panics (the unconditional
`bitplane_timings_ns[0]` read), and on a table whose first entry is zero it
panics (every pulse-period derivation divides by that first entry). -/
theorem c10_new_faults_on_degenerate_table :
    (∀ pins : Nat, HardwarePinPulser.new pins [] = none) ∧
    (∀ (pins : Nat) (rest : List Nat),
      HardwarePinPulser.new pins (0 :: rest) = none) := by
  constructor
  · intro pins
    rfl
  · intro pins rest
    by_cases h18 : pins = gpio_bits 18
    · subst h18
      simp [HardwarePinPulser.new, pinFunctionEvent, collectOption, u32Div]
    · by_cases h12 : pins = gpio_bits 12
      · subst h12
        simp [HardwarePinPulser.new, pinFunctionEvent, collectOption, u32Div, h18]
      · simp [HardwarePinPulser.new, pinFunctionEvent, h18, h12]

/-- C3: for every valid bitplane of the hardware strategy, `send_pulse`
pushes the period entries and then exactly two zero FIFO entries on both
period-splitting branches; the total number of FIFO entries is 3 when the
pulse period is below 16 (a single entry equal to the period, the period
register set to that value) and 10 when it is 16 or more (eight entries of
`period / 8`, the period register set to `period / 8`); period 15 takes the
single-entry path and period 16 the 8-fragment path. -/
theorem c3_fifo_trace_shape (s : HardwarePinPulser) (bitplane now : Nat)
    (h1 : bitplane < s.pulse_periods.length)
    (h2 : bitplane < s.sleep_hints_us.length) :
    sendPulseFifo s bitplane now =
      some ((if s.pulse_periods[bitplane] < 16 then [s.pulse_periods[bitplane]]
        else List.replicate 8 (s.pulse_periods[bitplane] / 8)) ++ [0, 0]) ∧
    (s.pulse_periods[bitplane] < 16 →
      sendPulseFifo s bitplane now = some [s.pulse_periods[bitplane], 0, 0] ∧
      Event.setPwmPulsePeriod s.pulse_periods[bitplane] ∈
        (sendPulseEvents s bitplane now).getD []) ∧
    (16 ≤ s.pulse_periods[bitplane] →
      sendPulseFifo s bitplane now =
        some (List.replicate 8 (s.pulse_periods[bitplane] / 8) ++ [0, 0]) ∧
      Event.setPwmPulsePeriod (s.pulse_periods[bitplane] / 8) ∈
        (sendPulseEvents s bitplane now).getD []) ∧
    ((sendPulseFifo s bitplane now).getD []).length =
      (if s.pulse_periods[bitplane] < 16 then 3 else 10) ∧
    (s.pulse_periods[bitplane] = 15 →
      sendPulseFifo s bitplane now = some [15, 0, 0]) ∧
    (s.pulse_periods[bitplane] = 16 →
      sendPulseFifo s bitplane now = some [2, 2, 2, 2, 2, 2, 2, 2, 0, 0]) := by
  have hq1 : s.pulse_periods[bitplane]? = some s.pulse_periods[bitplane] :=
    List.getElem?_eq_getElem h1
  have hq2 : s.sleep_hints_us[bitplane]? = some s.sleep_hints_us[bitplane] :=
    List.getElem?_eq_getElem h2
  have hev : sendPulseEvents s bitplane now =
      some ((if s.pulse_periods[bitplane] < 16 then
          [Event.setPwmPulsePeriod s.pulse_periods[bitplane],
            Event.pushFifo s.pulse_periods[bitplane]]
        else
          Event.setPwmPulsePeriod (s.pulse_periods[bitplane] / 8) ::
            List.replicate 8 (Event.pushFifo (s.pulse_periods[bitplane] / 8)))
        ++ [Event.pushFifo 0, Event.pushFifo 0, Event.enablePwm]) := by
    simp [sendPulseEvents, HardwarePinPulser.send_pulse, hq1, hq2]
  by_cases hp : s.pulse_periods[bitplane] < 16
  · have hfifo : sendPulseFifo s bitplane now =
        some [s.pulse_periods[bitplane], 0, 0] := by
      simp [sendPulseFifo, hev, hp, fifoPushes, List.filterMap_cons,
        List.filterMap_append]
    refine ⟨?_, fun _ => ⟨hfifo, ?_⟩,
      fun hge => absurd hp (Nat.not_lt.mpr hge), ?_, ?_, fun h16 => ?_⟩
    · simp [hfifo, hp]
    · simp [hev, hp]
    · simp [hfifo, hp]
    · intro h15
      rw [hfifo, h15]
    · exact absurd hp (by rw [h16]; decide)
  · have hrep : List.replicate 8 (Event.pushFifo (s.pulse_periods[bitplane] / 8)) =
        [Event.pushFifo (s.pulse_periods[bitplane] / 8),
          Event.pushFifo (s.pulse_periods[bitplane] / 8),
          Event.pushFifo (s.pulse_periods[bitplane] / 8),
          Event.pushFifo (s.pulse_periods[bitplane] / 8),
          Event.pushFifo (s.pulse_periods[bitplane] / 8),
          Event.pushFifo (s.pulse_periods[bitplane] / 8),
          Event.pushFifo (s.pulse_periods[bitplane] / 8),
          Event.pushFifo (s.pulse_periods[bitplane] / 8)] := rfl
    have hrepn : List.replicate 8 (s.pulse_periods[bitplane] / 8) =
        [s.pulse_periods[bitplane] / 8, s.pulse_periods[bitplane] / 8,
          s.pulse_periods[bitplane] / 8, s.pulse_periods[bitplane] / 8,
          s.pulse_periods[bitplane] / 8, s.pulse_periods[bitplane] / 8,
          s.pulse_periods[bitplane] / 8, s.pulse_periods[bitplane] / 8] := rfl
    have hfifo : sendPulseFifo s bitplane now =
        some (List.replicate 8 (s.pulse_periods[bitplane] / 8) ++ [0, 0]) := by
      simp [sendPulseFifo, hev, hp, hrep, hrepn, fifoPushes, List.filterMap_cons,
        List.filterMap_append]
    refine ⟨?_, fun hlt => absurd hlt hp, fun _ => ⟨hfifo, ?_⟩, ?_, fun h15 => ?_,
      fun h16 => ?_⟩
    · simp [hfifo, hp]
    · simp [hev, hp]
    · simp [hfifo, hp, List.length_append, List.length_replicate]
    · exact absurd hp (by rw [h15]; decide)
    · rw [hfifo, h16]
      rfl

/-- C3 witness: concrete runs of both branches, periods 15 and 16. -/
theorem c3_fifo_trace_shape_witness :
    sendPulseFifo ⟨[10], [15], none, 4⟩ 0 0 = some [15, 0, 0] ∧
    sendPulseFifo ⟨[10], [16], none, 4⟩ 0 0 = some [2, 2, 2, 2, 2, 2, 2, 2, 0, 0] := by
  constructor
  · exact (c3_fifo_trace_shape ⟨[10], [15], none, 4⟩ 0 0 (by decide)
      (by decide)).2.2.2.2.1 (by decide)
  · exact (c3_fifo_trace_shape ⟨[10], [16], none, 4⟩ 0 0 (by decide)
      (by decide)).2.2.2.2.2 (by decide)

/-- C4: for every timing table whose base (first) entry `b` is nonzero and
whose entries produce no `u32` overflow, the hardware constructor derives
the pulse period `2 * duration / b` (integer division) for every bitplane,
one period per table entry. -/
theorem c4_pulse_periods_formula (pins : Nat) (timings : List Nat) (b : Nat)
    (hpins : pins = gpio_bits 18 ∨ pins = gpio_bits 12)
    (hhead : timings.head? = some b) (hb : b ≠ 0)
    (hsmall : ∀ t ∈ timings, 2 * t < 4294967296) :
    newPeriods pins timings = some (timings.map (fun t => 2 * t / b)) ∧
    (timings.map (fun t => 2 * t / b)).length = timings.length := by
  have hcol : collectOption (fun timing => u32Div (2 * timing % 4294967296) b)
      timings = some (timings.map (fun t => 2 * t / b)) := by
    apply collectOption_eq_map
    intro t ht
    have hm : 2 * t % 4294967296 = 2 * t := Nat.mod_eq_of_lt (hsmall t ht)
    simp [u32Div, hb, hm]
  have hpe : pinFunctionEvent pins =
      some (if pins = gpio_bits 18 then Event.selectFunction 18 GPIOFunction.Alt5
        else Event.selectFunction 12 GPIOFunction.Alt0) := by
    rcases hpins with h | h <;> subst h
    · simp [pinFunctionEvent]
    · simp [pinFunctionEvent, show gpio_bits 12 ≠ gpio_bits 18 from by decide]
  constructor
  · simp [newPeriods, HardwarePinPulser.new, hhead, hpe, hcol]
  · simp

/-- C4 witness: concrete derivation for table `[1000, 2000, 4000]`. -/
theorem c4_pulse_periods_formula_witness :
    newPeriods (gpio_bits 18) [1000, 2000, 4000] = some [2, 4, 8] := by
  have h := (c4_pulse_periods_formula (gpio_bits 18) [1000, 2000, 4000] 1000
    (Or.inl rfl) rfl (by decide) (by decide)).1
  simpa using h

/-- C5 counterexample: for the spec's example table `[1000, 2000, 4000]`
(base 1000 ns), the source derives pulse periods `[2, 4, 8]`, not
`[1000, 2000, 4000]`, and `send_pulse 0` takes the single-entry path
(period 2 is below 16), pushing `[2, 0, 0]` rather than the claimed eight
fragments of 125 followed by two zeros. -/
theorem c5_example_counterexample :
    newPeriods (gpio_bits 18) [1000, 2000, 4000] = some [2, 4, 8] ∧
    newPeriods (gpio_bits 18) [1000, 2000, 4000] ≠ some [1000, 2000, 4000] ∧
    newThenPulseFifo (gpio_bits 18) [1000, 2000, 4000] 0 = some [2, 0, 0] ∧
    newThenPulseFifo (gpio_bits 18) [1000, 2000, 4000] 0 ≠
      some [125, 125, 125, 125, 125, 125, 125, 125, 0, 0] := by
  decide

/-- C5 amended: for the table `[1000, 2000, 4000]` (base 1000 ns) the derived
pulse periods are `[2, 4, 8]`; `send_pulse 0` takes the single-entry path,
since period 2 is below 16, pushing the period value 2 once followed by the
two zero terminators; the PWM clock divider is programmed with
`(1000 / 2) / PWM_BASE_TIME_NS = 250`. -/
theorem c5_example_single_entry_path :
    newPeriods (gpio_bits 18) [1000, 2000, 4000] = some [2, 4, 8] ∧
    newThenPulseFifo (gpio_bits 18) [1000, 2000, 4000] 0 = some [2, 0, 0] ∧
    newEvents (gpio_bits 18) [1000, 2000, 4000] =
      some [Event.selectFunction 18 GPIOFunction.Alt5, Event.resetPwm,
        Event.initPwmDivider 250] := by
  decide

/-- C8: the hardware constructor accepts exactly the two pin masks
`gpio_bits 18` (configured to Alt5) and `gpio_bits 12` (configured to
Alt0); every other pin mask makes construction fail fatally (the
`unreachable!` arm, modelled as `none`) rather than proceed. -/
theorem c8_hw_pin_mask_validation :
    (∀ (pins : Nat) (timings : List Nat), pins ≠ gpio_bits 18 →
      pins ≠ gpio_bits 12 → HardwarePinPulser.new pins timings = none) ∧
    (∀ (timings : List Nat) (b : Nat), timings.head? = some b → b ≠ 0 →
      newEvents (gpio_bits 18) timings =
        some [Event.selectFunction 18 GPIOFunction.Alt5, Event.resetPwm,
          Event.initPwmDivider (b / 2 / PWM_BASE_TIME_NS)]) ∧
    (∀ (timings : List Nat) (b : Nat), timings.head? = some b → b ≠ 0 →
      newEvents (gpio_bits 12) timings =
        some [Event.selectFunction 12 GPIOFunction.Alt0, Event.resetPwm,
          Event.initPwmDivider (b / 2 / PWM_BASE_TIME_NS)]) := by
  refine ⟨?_, ?_, ?_⟩
  · intro pins timings h18 h12
    cases timings with
    | nil => rfl
    | cons t rest => simp [HardwarePinPulser.new, pinFunctionEvent, h18, h12]
  · intro timings b hhead hb
    have hcol : collectOption (fun timing => u32Div (2 * timing % 4294967296) b)
        timings = some (timings.map (fun t => 2 * t % 4294967296 / b)) := by
      apply collectOption_eq_map
      intro t ht
      simp [u32Div, hb]
    simp [newEvents, HardwarePinPulser.new, hhead, pinFunctionEvent, hcol]
  · intro timings b hhead hb
    have hcol : collectOption (fun timing => u32Div (2 * timing % 4294967296) b)
        timings = some (timings.map (fun t => 2 * t % 4294967296 / b)) := by
      apply collectOption_eq_map
      intro t ht
      simp [u32Div, hb]
    simp [newEvents, HardwarePinPulser.new, hhead, pinFunctionEvent, hcol,
      show gpio_bits 12 ≠ gpio_bits 18 from by decide]

/-- C8 witness: concrete runs for an unsupported mask and the two supported
masks. -/
theorem c8_hw_pin_mask_validation_witness :
    HardwarePinPulser.new 5 [1000] = none ∧
    newEvents (gpio_bits 18) [1000] =
      some [Event.selectFunction 18 GPIOFunction.Alt5, Event.resetPwm,
        Event.initPwmDivider 250] ∧
    newEvents (gpio_bits 12) [1000] =
      some [Event.selectFunction 12 GPIOFunction.Alt0, Event.resetPwm,
        Event.initPwmDivider 250] := by
  refine ⟨?_, ?_, ?_⟩
  · exact c8_hw_pin_mask_validation.1 5 [1000] (by decide) (by decide)
  · exact c8_hw_pin_mask_validation.2.1 [1000] 1000 rfl (by decide)
  · exact c8_hw_pin_mask_validation.2.2 [1000] 1000 rfl (by decide)

/-- C9: at most one in-flight pulse record exists: construction leaves
`current_pulse` empty, `send_pulse` installs exactly one record (the issue
time and the bitplane's sleep hint, replacing whatever was there), and
`wait_pulse_finished` always leaves `current_pulse` empty. -/
theorem c9_single_inflight_invariant :
    (∀ (pins : Nat) (timings : List Nat) (s : HardwarePinPulser)
      (events : List Event), HardwarePinPulser.new pins timings = some (s, events) →
        s.current_pulse = none) ∧
    (∀ (s s2 : HardwarePinPulser) (bitplane now : Nat) (events : List Event),
      s.send_pulse bitplane now = some (s2, events) →
        ∃ hint, s.sleep_hints_us[bitplane]? = some hint ∧
          s2.current_pulse = some ⟨now, hint⟩) ∧
    (∀ (s : HardwarePinPulser) (now : Nat),
      ((s.wait_pulse_finished now).1).current_pulse = none) := by
  refine ⟨?_, ?_, ?_⟩
  · intro pins timings s events h
    cases hhead : timings.head? with
    | none => simp [HardwarePinPulser.new, hhead] at h
    | some tb =>
      cases hpin : pinFunctionEvent pins with
      | none => simp [HardwarePinPulser.new, hhead, hpin] at h
      | some ev =>
        cases hcol : collectOption
            (fun timing => u32Div (2 * timing % 4294967296) tb) timings with
        | none => simp [HardwarePinPulser.new, hhead, hpin, hcol] at h
        | some periods =>
          simp only [HardwarePinPulser.new, hhead, hpin, hcol,
            Option.some.injEq, Prod.mk.injEq] at h
          obtain ⟨hs, hev2⟩ := h
          subst hs
          rfl
  · intro s s2 bitplane now events h
    cases hper : s.pulse_periods[bitplane]? with
    | none => simp [HardwarePinPulser.send_pulse, hper] at h
    | some period =>
      cases hhint : s.sleep_hints_us[bitplane]? with
      | none => simp [HardwarePinPulser.send_pulse, hper, hhint] at h
      | some hint =>
        simp only [HardwarePinPulser.send_pulse, hper, hhint,
          Option.some.injEq, Prod.mk.injEq] at h
        obtain ⟨hs, hev2⟩ := h
        subst hs
        exact ⟨hint, rfl, rfl⟩
  · intro s now
    cases hc : s.current_pulse <;>
      simp [HardwarePinPulser.wait_pulse_finished, hc]

/-- C9 witness: concrete runs of construction, `send_pulse` and
`wait_pulse_finished` on the hardware pulser. -/
theorem c9_single_inflight_invariant_witness :
    (⟨[1], [2], none, 262144⟩ : HardwarePinPulser).current_pulse = none ∧
    (∃ hint, ([1] : List Nat)[0]? = some hint ∧
      (⟨[1], [2], some ⟨5, 1⟩, 4⟩ : HardwarePinPulser).current_pulse =
        some ⟨5, hint⟩) ∧
    ((HardwarePinPulser.wait_pulse_finished
      ⟨[1], [2], some ⟨5, 1⟩, 4⟩ 9).1).current_pulse = none := by
  refine ⟨?_, ?_, ?_⟩
  · exact c9_single_inflight_invariant.1 262144 [1000] ⟨[1], [2], none, 262144⟩
      [Event.selectFunction 18 GPIOFunction.Alt5, Event.resetPwm,
        Event.initPwmDivider 250] (by decide)
  · exact c9_single_inflight_invariant.2.1 ⟨[1], [2], none, 4⟩
      ⟨[1], [2], some ⟨5, 1⟩, 4⟩ 0 5
      [Event.setPwmPulsePeriod 2, Event.pushFifo 2, Event.pushFifo 0,
        Event.pushFifo 0, Event.enablePwm] (by decide)
  · exact c9_single_inflight_invariant.2.2 ⟨[1], [2], some ⟨5, 1⟩, 4⟩ 9
